import Mathlib

set_option maxRecDepth 8000

/-!
Verification of the metric extractor and updater script (scripts/update_scilit.py).

The script is embedded shallowly: HTML text is a list of characters, each
regular-expression search of the source is translated into an explicit,
executable scanner with the same matching semantics on ASCII input (the
source's patterns only involve ASCII literals, the classes for digits,
whitespace and word characters, and case-insensitive matching; the Unicode
extensions of those classes are not modelled), Python numbers are modelled
as integers and rationals, and the fallible parts of the run (the HTTP
fetch, attribute errors on the previously saved JSON) are modelled with
Except.
-/

namespace Scilit

/-- ASCII decimal digit: the regex class for digits on ASCII input. -/
def pyIsDigit (c : Char) : Bool := '0' ≤ c && c ≤ '9'

/-- ASCII whitespace: the regex whitespace class on ASCII input. -/
def pyIsSpace (c : Char) : Bool :=
  c = ' ' || c = '\t' || c = '\n' || c = '\r' || c = '\x0b' || c = '\x0c'

/-- ASCII word character: the regex word class on ASCII input, used for word boundaries. -/
def pyIsWord (c : Char) : Bool :=
  pyIsDigit c || ('a' ≤ c && c ≤ 'z') || ('A' ≤ c && c ≤ 'Z') || c = '_'

/-- Uppercase variant of an ASCII lowercase letter, identity elsewhere. -/
def asciiUpper : Char → Char
  | 'a' => 'A' | 'b' => 'B' | 'c' => 'C' | 'd' => 'D' | 'e' => 'E' | 'f' => 'F'
  | 'g' => 'G' | 'h' => 'H' | 'i' => 'I' | 'j' => 'J' | 'k' => 'K' | 'l' => 'L'
  | 'm' => 'M' | 'n' => 'N' | 'o' => 'O' | 'p' => 'P' | 'q' => 'Q' | 'r' => 'R'
  | 's' => 'S' | 't' => 'T' | 'u' => 'U' | 'v' => 'V' | 'w' => 'W' | 'x' => 'X'
  | 'y' => 'Y' | 'z' => 'Z' | c => c

/-- Case-insensitive comparison of an input character against a lowercase pattern character. -/
def matchesCi (c p : Char) : Bool := c = p || c = asciiUpper p

/-- Does the text start with a match of the month pattern: literal 20, two
digits, a hyphen, two digits? Embeds the regex used by parse_series to
collect months. -/
def isMonthAt : List Char → Bool
  | '2' :: '0' :: a :: b :: '-' :: c :: d :: _ =>
    pyIsDigit a && pyIsDigit b && pyIsDigit c && pyIsDigit d
  | _ => false

/-- Non-overlapping left-to-right scan for all month tokens, as re.findall
performs it; fuel bounds the recursion by the text length. -/
def findMonthsF : Nat → List Char → List String
  | 0, _ => []
  | _ + 1, [] => []
  | fuel + 1, c :: t =>
    if isMonthAt (c :: t) then
      String.mk ((c :: t).take 7) :: findMonthsF fuel ((c :: t).drop 7)
    else findMonthsF fuel t

/-- All month tokens of the text, in order of appearance. -/
def findMonths (l : List Char) : List String := findMonthsF l.length l

/-- Removal of later duplicates keeping first-seen order, as the script's
seen-set comprehension does. -/
def dedupAux : List String → List String → List String
  | _, [] => []
  | seen, m :: rest =>
    if m ∈ seen then dedupAux seen rest else m :: dedupAux (m :: seen) rest

/-- Duplicate removal preserving the first occurrence of each month. -/
def dedupFirst (ms : List String) : List String := dedupAux [] ms

/-- Case-insensitive literal matching: consume the pattern (given in
lowercase) from the input, returning the rest of the input. -/
def litCi : List Char → List Char → Option (List Char)
  | [], l => some l
  | _ :: _, [] => none
  | p :: ps, c :: cs => if matchesCi c p then litCi ps cs else none

/-- One mandatory whitespace character followed by the maximal run of
further whitespace: the regex one-or-more-whitespace element. -/
def ws1 : List Char → Option (List Char)
  | [] => none
  | c :: cs => if pyIsSpace c then some (cs.dropWhile pyIsSpace) else none

/-- Matcher, at the head of the input, for the phrase pattern: Monthly,
whitespace, Citation, whitespace, Metric, case-insensitive. Returns the
rest of the input after the match. -/
def matchMCM (l : List Char) : Option (List Char) :=
  match litCi (("monthly" : String).data) l with
  | none => none
  | some l1 =>
    match ws1 l1 with
    | none => none
    | some l2 =>
      match litCi (("citation" : String).data) l2 with
      | none => none
      | some l3 =>
        match ws1 l3 with
        | none => none
        | some l4 => litCi (("metric" : String).data) l4

/-- Leftmost search of a matcher over the text, as re.search: returns the
start and end offsets of the first match. The matcher also receives the
character preceding the current position, for word-boundary tests. -/
def reSearchAux (m : Option Char → List Char → Option (List Char)) :
    Option Char → Nat → List Char → Option (Nat × Nat)
  | prev, pos, [] =>
    match m prev [] with
    | some rest => some (pos, pos + (0 - rest.length))
    | none => none
  | prev, pos, c :: t =>
    match m prev (c :: t) with
    | some rest => some (pos, pos + ((c :: t).length - rest.length))
    | none => reSearchAux m (some c) (pos + 1) t

/-- re.search for the Monthly Citation Metric phrase. -/
def mcmPhraseSearch (html : List Char) : Option (Nat × Nat) :=
  reSearchAux (fun _ l => matchMCM l) none 0 html

/-- A word boundary holds before the current position. -/
def boundaryOk : Option Char → Bool
  | none => true
  | some c => !pyIsWord c

/-- A word boundary holds after the matched label. -/
def afterIndexOk : List Char → Bool
  | [] => true
  | c :: _ => !pyIsWord c

/-- Matcher at the head of the input for the h5-index label pattern: word
boundary, h, 5, an optional hyphen or whitespace character, index, word
boundary, case-insensitive. -/
def matchH5 (prev : Option Char) (l : List Char) : Option (List Char) :=
  if boundaryOk prev then
    match l with
    | c1 :: '5' :: rest =>
      if matchesCi c1 'h' then
        let rest' := match rest with
          | c3 :: r => if c3 = '-' || pyIsSpace c3 then r else c3 :: r
          | [] => []
        match litCi (("index" : String).data) rest' with
        | some r2 => if afterIndexOk r2 then some r2 else none
        | none => none
      else none
    | _ => none
  else none

/-- re.search for the h5-index label pattern. -/
def h5Search (html : List Char) : Option (Nat × Nat) :=
  reSearchAux matchH5 none 0 html

/-- re.search for a case-insensitive literal, used to model label patterns
in concrete scenarios. -/
def ciLitSearch (pat : List Char) (html : List Char) : Option (Nat × Nat) :=
  reSearchAux (fun _ l => litCi pat l) none 0 html

/-- Greedy repetitions of a separator (dot or comma) followed by exactly
three digits: the thousands-group part of the number pattern in
parse_number_near_label. Returns the consumed characters and the rest. -/
def numRepsF : Nat → List Char → List Char × List Char
  | 0, l => ([], l)
  | _ + 1, [] => ([], [])
  | fuel + 1, c :: r =>
    if (c = '.' || c = ',') && (r.take 3).length == 3 && (r.take 3).all pyIsDigit then
      let p := numRepsF fuel (r.drop 3)
      (c :: (r.take 3 ++ p.1), p.2)
    else ([], c :: r)

/-- Optional separator followed by one or more digits: the decimal-part
option of the number pattern. -/
def numOpt : List Char → List Char × List Char
  | [] => ([], [])
  | c :: r =>
    if (c = '.' || c = ',') && (match r with | d :: _ => pyIsDigit d | [] => false) then
      (c :: r.takeWhile pyIsDigit, r.dropWhile pyIsDigit)
    else ([], c :: r)

/-- Match of the number pattern (one to three digits, thousands groups,
optional decimal part) at a digit-initial position. -/
def numMunch (l : List Char) : List Char :=
  let d0 := (l.takeWhile pyIsDigit).take 3
  let r0 := l.drop d0.length
  let p1 := numRepsF l.length r0
  let p2 := numOpt p1.2
  d0 ++ p1.1 ++ p2.1

/-- Leftmost match of the number pattern in a chunk of text: the match can
only start at the first digit. -/
def numSearch (l : List Char) : Option (List Char) :=
  match l.dropWhile (fun c => !pyIsDigit c) with
  | [] => none
  | c :: r => some (numMunch (c :: r))

/-- Numeric value of a digit string, most significant digit first. -/
def digitsToNat (ds : List Char) : Nat :=
  ds.foldl (fun a c => a * 10 + (c.toNat - 48)) 0

/-- Python float() applied to the normalised token (digits with at most one
dot); any other shape raises and is modelled as none. -/
def pyFloatParse (l : List Char) : Option ℚ :=
  if l = [] then none
  else if l.all (fun c => pyIsDigit c || c = '.') && l.count '.' ≤ 1 && l.any pyIsDigit then
    match l.dropWhile pyIsDigit with
    | '.' :: fs =>
      some ((digitsToNat (l.takeWhile pyIsDigit) : ℚ) + (digitsToNat fs : ℚ) / (10 ^ fs.length : ℚ))
    | _ => some ((digitsToNat (l.takeWhile pyIsDigit) : ℚ))
  else none

/-- A Python number: an int or a float; floats are modelled as rationals
(the source only ever produces floats from short decimal literals). -/
inductive JNum where
  | int : Int → JNum
  | float : ℚ → JNum
deriving DecidableEq

/-- parse_number_near_label from the script: find the label, take the
window from 200 characters before the match start to 400 after its end,
find the first number token there, strip dots, turn commas into dots,
parse as a float and return it as an int when integral. The compiled label
regex is passed as a search function. -/
def parse_number_near_label (html : List Char)
    (labelSearch : List Char → Option (Nat × Nat)) : Option JNum :=
  match labelSearch html with
  | none => none
  | some (s, e) =>
    let start := s - 200
    let stop := min (e + 400) html.length
    let chunk := (html.drop start).take (stop - start)
    match numSearch chunk with
    | none => none
    | some tok =>
      let norm := (tok.filter (fun c => c ≠ '.')).map (fun c => if c = ',' then '.' else c)
      match pyFloatParse norm with
      | none => none
      | some q => some (if q.den = 1 then JNum.int q.num else JNum.float q)

/-- Exit of the array pattern: optional whitespace then the closing bracket;
returns the rest of the input after the bracket. -/
def closeBr (l : List Char) : Option (List Char) :=
  match l.dropWhile pyIsSpace with
  | ']' :: r => some r
  | _ => none

/-!
The bracketed-array pattern (an opening bracket, one or more groups of
optional whitespace, digits, an optional dot-decimal part, optional
whitespace and an optional comma, then optional whitespace and a closing
bracket) is matched with the backtracking semantics of the source's regex
engine. The whitespace runs and the integer digit runs can be consumed
maximally: giving characters back from them leads the engine into states
that reach exactly the same positions (the next group's leading whitespace
or digit run re-consumes them), so the first successful match is unchanged.
The digits of the fractional part are the one genuine choice point: giving
digits back there ends the group early and lets the remaining digits start
a new group that has a fresh fractional part available, so those
alternatives are tried longest first, then the empty option, as the engine
does. The loop prefers matching a further group over closing the bracket.
Fuel decreases once per group; a group consumes at least one character, so
the input length plus one bounds every backtracking path.
-/
mutual

/-- After at least one matched group: prefer a further group, else close.
Fuel decreases at every call of the mutual matcher, keeping the recursion
structural; a group consumes at least one character and costs a bounded
number of calls, so a linear fuel budget is enough. -/
def matchRest : Nat → List Char → Option (List Char)
  | 0, _ => none
  | fuel + 1, l => (tryG fuel l) <|> (closeBr l)

/-- Try to match one group at the current position and continue with the
rest of the array pattern, exploring the fractional-part alternatives. -/
def tryG : Nat → List Char → Option (List Char)
  | 0, _ => none
  | fuel + 1, l =>
    let l1 := l.dropWhile pyIsSpace
    if (l1.takeWhile pyIsDigit).length = 0 then none
    else
      let l2 := l1.dropWhile pyIsDigit
      match l2 with
      | '.' :: r =>
        let fs := r.takeWhile pyIsDigit
        if fs.length = 0 then gTail fuel l2
        else (tryFracs fuel fs.length r) <|> (gTail fuel l2)
      | _ => gTail fuel l2

/-- Try the fractional-part lengths j, j-1, ..., 1, longest first. -/
def tryFracs : Nat → Nat → List Char → Option (List Char)
  | 0, _, _ => none
  | _ + 1, 0, _ => none
  | fuel + 1, j + 1, r => (gTail fuel (r.drop (j + 1))) <|> (tryFracs fuel j r)

/-- Tail of a group: trailing whitespace and the optional comma (consumed
by preference), then the rest of the array pattern. -/
def gTail : Nat → List Char → Option (List Char)
  | 0, _ => none
  | fuel + 1, l3 =>
    match l3.dropWhile pyIsSpace with
    | ',' :: r => (matchRest fuel r) <|> (matchRest fuel (',' :: r))
    | l4 => matchRest fuel l4

end

/-- Match of the tail of the bracketed-array pattern right after an opening
bracket: one or more groups, optional whitespace, a closing bracket.
Returns how many characters were consumed, the closing bracket included. -/
def matchArrTail (rest : List Char) : Option Nat :=
  match tryG (4 * rest.length + 8) rest with
  | some r => some (rest.length - r.length)
  | none => none

/-- Leftmost match of the bracketed numeric array pattern, returning the
matched substring, as re.search does in parse_series. -/
def arrSearch : List Char → Option (List Char)
  | [] => none
  | c :: rest =>
    if c = '[' then
      match matchArrTail rest with
      | some k => some ('[' :: rest.take k)
      | none => arrSearch rest
    else arrSearch rest

/-- Non-overlapping scan for all tokens of one or more digits with an
optional dot-decimal part, as re.findall extracts the array's values. -/
def findallNumsF : Nat → List Char → List (List Char)
  | 0, _ => []
  | _ + 1, [] => []
  | fuel + 1, c :: r =>
    if pyIsDigit c then
      let ds := (c :: r).takeWhile pyIsDigit
      let r1 := (c :: r).dropWhile pyIsDigit
      match r1 with
      | '.' :: r2 =>
        if (match r2 with | d :: _ => pyIsDigit d | [] => false) then
          (ds ++ '.' :: r2.takeWhile pyIsDigit) :: findallNumsF fuel (r2.dropWhile pyIsDigit)
        else ds :: findallNumsF fuel r1
      | _ => ds :: findallNumsF fuel r1
    else findallNumsF fuel r

/-- All numeric tokens of the matched array text. -/
def findallNums (l : List Char) : List (List Char) := findallNumsF l.length l

/-- Python float() on a token of digits with an optional dot-decimal part. -/
def pyFloatOfToken (tok : List Char) : ℚ :=
  match tok.dropWhile pyIsDigit with
  | '.' :: fs =>
    (digitsToNat (tok.takeWhile pyIsDigit) : ℚ) + (digitsToNat fs : ℚ) / (10 ^ fs.length : ℚ)
  | _ => (digitsToNat (tok.takeWhile pyIsDigit) : ℚ)

/-- Round-half-to-even to an integer, as Python round does on exact values. -/
def halfEven (x : ℚ) : ℤ :=
  let f := ⌊x⌋
  let r := x - f
  if r < 1 / 2 then f
  else if 1 / 2 < r then f + 1
  else if f % 2 = 0 then f else f + 1

/-- Python round(x, 4) on the modelled rational values. -/
def roundTo4 (q : ℚ) : ℚ := (halfEven (q * 10000) : ℚ) / 10000

/-- One point of the extracted time series. -/
structure SeriesPoint where
  month : String
  value : ℚ
deriving DecidableEq

/-- parse_series from the script: collect the de-duplicated months of the
whole text, find the phrase, search the 50000-character window starting at
it for the first bracketed numeric array, parse its values, and pair the
i-th month with the i-th rounded value up to the shorter length. -/
def parse_series (html : List Char) : List SeriesPoint :=
  let months := dedupFirst (findMonths html)
  match mcmPhraseSearch html with
  | none => []
  | some (s, _) =>
    let window := (html.drop s).take 50000
    match arrSearch window with
    | none => []
    | some raw =>
      let values := (findallNums raw).map pyFloatOfToken
      let n := min months.length values.length
      if n = 0 then []
      else (List.range n).map (fun i => SeriesPoint.mk months[i]! (roundTo4 values[i]!))

/-- Shape of a month token: literal 20, two digits, a hyphen, two digits,
with no validity check on the month part. -/
def monthShapeB (s : String) : Bool :=
  match s.data with
  | '2' :: '0' :: a :: b :: '-' :: c :: d :: [] =>
    pyIsDigit a && pyIsDigit b && pyIsDigit c && pyIsDigit d
  | _ => false

/-- A JSON value as Python's json module produces and consumes it; numbers
keep the int/float distinction, objects keep insertion order. -/
inductive JVal where
  | null : JVal
  | bool : Bool → JVal
  | num : JNum → JVal
  | str : String → JVal
  | arr : List JVal → JVal
  | obj : List (String × JVal) → JVal

/-- JSON whitespace accepted between tokens by json.loads. -/
def jsonWs (c : Char) : Bool := c = ' ' || c = '\t' || c = '\n' || c = '\r'

/-- Value of a hexadecimal digit. -/
def hexVal (c : Char) : Option Nat :=
  if pyIsDigit c then some (c.toNat - 48)
  else if 'a' ≤ c && c ≤ 'f' then some (c.toNat - 87)
  else if 'A' ≤ c && c ≤ 'F' then some (c.toNat - 55)
  else none

/-- Body of a JSON string after the opening quote: characters and escapes
up to the closing quote. Unescaped control characters are rejected, as
json.loads (strict) does; surrogate pairing of unicode escapes is not
modelled. -/
def jpStringF : Nat → List Char → List Char → Option (String × List Char)
  | 0, _, _ => none
  | _ + 1, acc, '"' :: r => some (String.mk acc.reverse, r)
  | fuel + 1, acc, '\\' :: c :: r =>
    match c with
    | '"' => jpStringF fuel ('"' :: acc) r
    | '\\' => jpStringF fuel ('\\' :: acc) r
    | '/' => jpStringF fuel ('/' :: acc) r
    | 'b' => jpStringF fuel ('\x08' :: acc) r
    | 'f' => jpStringF fuel ('\x0c' :: acc) r
    | 'n' => jpStringF fuel ('\n' :: acc) r
    | 'r' => jpStringF fuel ('\r' :: acc) r
    | 't' => jpStringF fuel ('\t' :: acc) r
    | 'u' =>
      match r with
      | a :: b :: c2 :: d :: r2 =>
        match hexVal a, hexVal b, hexVal c2, hexVal d with
        | some x1, some x2, some x3, some x4 =>
          jpStringF fuel (Char.ofNat (((x1 * 16 + x2) * 16 + x3) * 16 + x4) :: acc) r2
        | _, _, _, _ => none
      | _ => none
    | _ => none
  | fuel + 1, acc, c :: r =>
    if c.toNat < 32 then none else jpStringF fuel (c :: acc) r
  | _, _, [] => none

/-- JSON number at the head of the input: optional sign, integer part
without spurious leading zeros, optional fraction, optional exponent. A
number with a fraction or exponent is a float, otherwise an int, as
json.loads produces them. The NaN and Infinity extensions are not
modelled (treated as a parse failure). -/
def jpNumber (l : List Char) : Option (JVal × List Char) :=
  let neg := match l with | '-' :: _ => true | _ => false
  let l1 := match l with | '-' :: r => r | _ => l
  let ip := l1.takeWhile pyIsDigit
  if ip = [] then none
  else if ip.length > 1 && ip.headD '0' = '0' then none
  else
    let l2 := l1.dropWhile pyIsDigit
    let fracPart : Option (List Char × List Char) := match l2 with
      | '.' :: r =>
        let fd := r.takeWhile pyIsDigit
        if fd = [] then none else some (fd, r.dropWhile pyIsDigit)
      | _ => some ([], l2)
    match fracPart with
    | none => none
    | some (fd, l3) =>
      let hasFrac := match l2 with | '.' :: _ => true | _ => false
      let expPart : Option (Option Int × List Char) := match l3 with
        | c :: r3 =>
          if c = 'e' || c = 'E' then
            let esign : Int := match r3 with | '-' :: _ => -1 | _ => 1
            let r4 := match r3 with | '-' :: rr => rr | '+' :: rr => rr | _ => r3
            let ed := r4.takeWhile pyIsDigit
            if ed = [] then none
            else some (some (esign * (digitsToNat ed : Int)), r4.dropWhile pyIsDigit)
          else some (none, l3)
        | [] => some (none, l3)
      match expPart with
      | none => none
      | some (expv, l4) =>
        let base : ℚ := (digitsToNat ip : ℚ) + (digitsToNat fd : ℚ) / (10 ^ fd.length : ℚ)
        let signed : ℚ := if neg then -base else base
        match expv with
        | none =>
          if hasFrac then some (JVal.num (JNum.float signed), l4)
          else some (JVal.num (JNum.int (if neg then -(digitsToNat ip : Int) else (digitsToNat ip : Int))), l4)
        | some ex => some (JVal.num (JNum.float (signed * (10 : ℚ) ^ ex)), l4)

/-- Insertion into an object under construction: a repeated key replaces
the stored value but keeps the original position, as a Python dict does. -/
def insertKV : List (String × JVal) → String → JVal → List (String × JVal)
  | [], k, v => [(k, v)]
  | (k0, v0) :: rest, k, v =>
    if k0 = k then (k0, v) :: rest else (k0, v0) :: insertKV rest k v

mutual

/-- JSON value at the head of the input, as json.loads parses it. -/
def jpValue : Nat → List Char → Option (JVal × List Char)
  | 0, _ => none
  | fuel + 1, l =>
    match l.dropWhile jsonWs with
    | 'n' :: 'u' :: 'l' :: 'l' :: r => some (JVal.null, r)
    | 't' :: 'r' :: 'u' :: 'e' :: r => some (JVal.bool true, r)
    | 'f' :: 'a' :: 'l' :: 's' :: 'e' :: r => some (JVal.bool false, r)
    | '"' :: r =>
      match jpStringF (r.length + 1) [] r with
      | some (s, r2) => some (JVal.str s, r2)
      | none => none
    | '[' :: r =>
      match r.dropWhile jsonWs with
      | ']' :: r2 => some (JVal.arr [], r2)
      | r1 => jpArrayItems fuel [] r1
    | '\x7b' :: r =>
      match r.dropWhile jsonWs with
      | '\x7d' :: r2 => some (JVal.obj [], r2)
      | r1 => jpObjectItems fuel [] r1
    | l1 => jpNumber l1

/-- Comma-separated values up to the closing bracket. -/
def jpArrayItems : Nat → List JVal → List Char → Option (JVal × List Char)
  | 0, _, _ => none
  | fuel + 1, acc, l =>
    match jpValue fuel l with
    | none => none
    | some (v, r) =>
      match r.dropWhile jsonWs with
      | ',' :: r2 => jpArrayItems fuel (v :: acc) r2
      | ']' :: r2 => some (JVal.arr (v :: acc).reverse, r2)
      | _ => none

/-- Comma-separated key-value pairs up to the closing brace. -/
def jpObjectItems : Nat → List (String × JVal) → List Char → Option (JVal × List Char)
  | 0, _, _ => none
  | fuel + 1, acc, l =>
    match l.dropWhile jsonWs with
    | '"' :: r =>
      match jpStringF (r.length + 1) [] r with
      | none => none
      | some (k, r2) =>
        match r2.dropWhile jsonWs with
        | ':' :: r4 =>
          match jpValue fuel r4 with
          | none => none
          | some (v, r5) =>
            match r5.dropWhile jsonWs with
            | ',' :: r7 => jpObjectItems fuel (insertKV acc k v) r7
            | '\x7d' :: r7 => some (JVal.obj (insertKV acc k v), r7)
            | _ => none
        | _ => none
    | _ => none

end

/-- json.loads: parse one JSON document with nothing but whitespace after
it; any failure is a raised ValueError, modelled as none. -/
def json_loads (s : String) : Option JVal :=
  match jpValue (s.length + 1) s.data with
  | some (v, rest) => if rest.dropWhile jsonWs = [] then some v else none
  | none => none

/-- Hexadecimal digit character of a value below 16. -/
def hexDigit (n : Nat) : Char :=
  if n < 10 then Char.ofNat (48 + n) else Char.ofNat (87 + n)

/-- Serialization of one character inside a JSON string by json.dumps with
ensure_ascii disabled: only the quote, the backslash and control
characters are escaped; everything else, non-ASCII included, is kept
literally. -/
def escapeChar (c : Char) : List Char :=
  if c = '"' then ['\\', '"']
  else if c = '\\' then ['\\', '\\']
  else if c = '\n' then ['\\', 'n']
  else if c = '\t' then ['\\', 't']
  else if c = '\r' then ['\\', 'r']
  else if c = '\x08' then ['\\', 'b']
  else if c = '\x0c' then ['\\', 'f']
  else if c.toNat < 32 then
    ['\\', 'u', '0', '0', hexDigit (c.toNat / 16), hexDigit (c.toNat % 16)]
  else [c]

/-- Serialization of a JSON string, quotes included. -/
def encodeJsonString (s : String) : String :=
  "\"" ++ String.mk ((s.data.map escapeChar).flatten) ++ "\""

/-- Decimal digits of a natural number with a decimal point k digits from
the right, zero-padded as needed. -/
def decimalString (n : Nat) (k : Nat) : String :=
  let ds := (toString n).data
  let ds := if ds.length ≤ k then List.replicate (k + 1 - ds.length) '0' ++ ds else ds
  String.mk (ds.take (ds.length - k) ++ '.' :: ds.drop (ds.length - k))

/-- Smallest number of decimal places, up to the given bound, that writes
the rational exactly. -/
def decPlaces (q : ℚ) : Nat → Option Nat
  | 0 => if q.den = 1 then some 0 else none
  | k + 1 =>
    match decPlaces q k with
    | some j => some j
    | none => if (q * 10 ^ (k + 1)).den = 1 then some (k + 1) else none

/-- repr of a Python float, modelled on the decimally representable values
the script produces: an integral float prints with a trailing .0, other
values print their exact decimal expansion when one exists within the
shortest-repr precision; the remaining rationals (which the modelled
pipeline never produces) fall back to their integer floor. -/
def floatRepr (q : ℚ) : String :=
  let sign := if q < 0 then "-" else ""
  let a := |q|
  if a.den = 1 then sign ++ toString a.num ++ ".0"
  else
    match decPlaces a 17 with
    | some k => sign ++ decimalString (a * 10 ^ k).num.toNat k
    | none => sign ++ toString ⌊a⌋ ++ ".0"

/-- Serialization of a number by json.dumps. -/
def dumpNum : JNum → String
  | JNum.int n => toString n
  | JNum.float q => floatRepr q

/-- Indentation of the given level for json.dumps with indent 2. -/
def jIndent (lvl : Nat) : String := String.mk (List.replicate (2 * lvl) ' ')

mutual

/-- json.dumps with indent 2: serialization of one value at a level. -/
def dumpVal : Nat → JVal → String
  | _, JVal.null => "null"
  | _, JVal.bool true => "true"
  | _, JVal.bool false => "false"
  | _, JVal.num n => dumpNum n
  | _, JVal.str s => encodeJsonString s
  | _, JVal.arr [] => "[]"
  | lvl, JVal.arr (x :: xs) =>
    "[\n" ++ dumpItems (lvl + 1) x xs ++ "\n" ++ jIndent lvl ++ "]"
  | _, JVal.obj [] => "\x7b\x7d"
  | lvl, JVal.obj ((k, v) :: ps) =>
    "\x7b\n" ++ dumpPairs (lvl + 1) k v ps ++ "\n" ++ jIndent lvl ++ "\x7d"
  termination_by _ v => sizeOf v

/-- Comma-and-newline separated array items, each indented. -/
def dumpItems : Nat → JVal → List JVal → String
  | lvl, x, [] => jIndent lvl ++ dumpVal lvl x
  | lvl, x, y :: rest => jIndent lvl ++ dumpVal lvl x ++ ",\n" ++ dumpItems lvl y rest
  termination_by _ x xs => 1 + sizeOf x + sizeOf xs

/-- Comma-and-newline separated object entries, each indented. -/
def dumpPairs : Nat → String → JVal → List (String × JVal) → String
  | lvl, k, v, [] => jIndent lvl ++ encodeJsonString k ++ ": " ++ dumpVal lvl v
  | lvl, k, v, (k2, v2) :: rest =>
    jIndent lvl ++ encodeJsonString k ++ ": " ++ dumpVal lvl v ++ ",\n" ++ dumpPairs lvl k2 v2 rest
  termination_by _ _ v ps => 1 + sizeOf v + sizeOf ps

end

/-- json.dumps with ensure_ascii disabled and indent 2, as the script
writes the output file. -/
def json_dumps (v : JVal) : String := dumpVal 0 v

/-- The fixed source URL of the script. -/
def SCILIT_URL : String := "https://www.scilit.com/sources/96056"

/-- Lookup of a key in an object's entries. -/
def pyLookup (kvs : List (String × JVal)) (k : String) : Option JVal :=
  match kvs.find? (fun p => p.1 == k) with
  | some p => some p.2
  | none => none

/-- The dict get method: none when the key is absent; calling it on a
non-dict value raises an AttributeError, modelled as an error. -/
def pyGet (v : JVal) (k : String) : Except String (Option JVal) :=
  match v with
  | JVal.obj kvs => Except.ok (pyLookup kvs k)
  | _ => Except.error ("AttributeError: get on non-dict value")

/-- The JSON form of an extracted series, as the payload stores it. -/
def seriesToJson (pts : List SeriesPoint) : JVal :=
  JVal.arr (pts.map (fun p =>
    JVal.obj [(("month" : String), JVal.str p.month),
              (("value" : String), JVal.num (JNum.float p.value))]))

/-- The series kept by main: when the extracted series is empty and the
prior snapshot's series entry is a list, that list is substituted; the
membership test only runs when the extracted series is empty, matching
the short-circuit conjunction in the source. -/
def chooseSeries (extracted : List SeriesPoint) (old : JVal) : Except String JVal :=
  if extracted.isEmpty then
    match pyGet old ("series" : String) with
    | Except.error e => Except.error e
    | Except.ok (some (JVal.arr l)) => Except.ok (JVal.arr l)
    | Except.ok _ => Except.ok (seriesToJson extracted)
  else Except.ok (seriesToJson extracted)

/-- Value form of chooseSeries on an object, used to state its result. -/
def chooseSeriesVal (extracted : List SeriesPoint) (kvs : List (String × JVal)) : JVal :=
  if extracted.isEmpty then
    match pyLookup kvs ("series" : String) with
    | some (JVal.arr l) => JVal.arr l
    | _ => seriesToJson extracted
  else seriesToJson extracted

/-- The mcm scalar shares the phrase search with parse_series. -/
def mcmSearchLabel : List Char → Option (Nat × Nat) := mcmPhraseSearch

/-- The payload assembled by main on the success path when the prior
snapshot is an object. -/
def mkPayload (kvs : List (String × JVal)) (html : List Char) (today : String) :
    List (String × JVal) :=
  [(("source" : String), JVal.str SCILIT_URL),
   (("updated_at" : String), JVal.str today),
   (("h5_index" : String),
     match parse_number_near_label html h5Search with
     | some v => JVal.num v
     | none => (pyLookup kvs ("h5_index" : String)).getD JVal.null),
   (("mcm" : String),
     match parse_number_near_label html mcmSearchLabel with
     | some v => JVal.num v
     | none => (pyLookup kvs ("mcm" : String)).getD JVal.null),
   (("series" : String), chooseSeriesVal (parse_series html) kvs)]

/-- The body of main's try block after the fetch: extract the two scalars
and the series, apply the series carry-forward, and assemble the payload;
dict get on a non-dict prior snapshot raises out of the body. -/
def runBody (old : JVal) (html : List Char) (today : String) :
    Except String (List (String × JVal)) :=
  let h5 := parse_number_near_label html h5Search
  let mcm := parse_number_near_label html mcmSearchLabel
  let extracted := parse_series html
  match chooseSeries extracted old with
  | Except.error e => Except.error e
  | Except.ok seriesJ =>
    match pyGet old ("h5_index" : String) with
    | Except.error e => Except.error e
    | Except.ok oldH5 =>
      match pyGet old ("mcm" : String) with
      | Except.error e => Except.error e
      | Except.ok oldMcm =>
        Except.ok
          [(("source" : String), JVal.str SCILIT_URL),
           (("updated_at" : String), JVal.str today),
           (("h5_index" : String),
             match h5 with | some v => JVal.num v | none => oldH5.getD JVal.null),
           (("mcm" : String),
             match mcm with | some v => JVal.num v | none => oldMcm.getD JVal.null),
           (("series" : String), seriesJ)]

/-- Loading of the prior snapshot: an absent file or a failed parse both
give an empty fallback object; a successfully parsed document of any
shape is kept as is. -/
def loadOld (fs : Option String) : JVal :=
  match fs with
  | none => JVal.obj []
  | some content =>
    match json_loads content with
    | some v => v
    | none => JVal.obj []

/-- The try block of main, from the fetch (given as its result here, since
the network is outside the program) through payload assembly. -/
def tryBody (fs : Option String) (fetch : Except String String) (today : String) :
    Except String (List (String × JVal)) :=
  match fetch with
  | Except.error e => Except.error e
  | Except.ok html => runBody (loadOld fs) html.data today

/-- The diagnostic line printed on failure, before the exception text. -/
def errPrefix : String := "ERRO ao atualizar (mantendo JSON anterior): "

/-- Outcome of one run: the output file's content afterwards (none when
the file does not exist) and the printed status line. -/
structure RunResult where
  file : Option String
  output : String
deriving DecidableEq

/-- main: load the prior snapshot (absent or unparsable content becoming
an empty fallback object), run the fetch-through-assemble pipeline, and
either write the serialized payload over the output file and report
success, or leave the file untouched and print the diagnostic line. The
current UTC date and the fetch result enter as parameters: they come from
the environment. -/
def main (fs : Option String) (fetch : Except String String) (today : String) : RunResult :=
  match tryBody fs fetch today with
  | Except.error e => RunResult.mk fs (errPrefix ++ e)
  | Except.ok payload =>
    RunResult.mk (some (json_dumps (JVal.obj payload))) ("OK: JSON atualizado.")

/-- The prior snapshot content of the error-handling scenario in the spec. -/
def priorContent : String :=
  "\x7b\"h5_index\": 5, \"mcm\": 0.42, \"series\": [\x7b\"month\":\"2024-01\",\"value\":0.1\x7d]\x7d"

section Theorems

/-! The rational operations of the library are irreducible by default,
which blocks the evaluation of concrete scenarios; they are definitionally
computable, so they are made reducible for this development. -/
attribute [local semireducible] Rat.add Rat.mul Rat.inv Rat.sub

/-! Helper lemmas about the embedded operations. -/

theorem dedupAux_not_mem_seen :
    ∀ (l seen : List String) (m : String), m ∈ dedupAux seen l → m ∉ seen := by
  intro l
  induction l with
  | nil => intro seen m h; simp [dedupAux] at h
  | cons m' rest ih =>
    intro seen m h
    rw [dedupAux] at h
    by_cases hm : m' ∈ seen
    · rw [if_pos hm] at h; exact ih seen m h
    · rw [if_neg hm] at h
      rcases List.mem_cons.mp h with rfl | h2
      · exact hm
      · intro hs; exact ih (m' :: seen) m h2 (List.mem_cons_of_mem m' hs)

theorem dedupAux_nodup : ∀ (l seen : List String), (dedupAux seen l).Nodup := by
  intro l
  induction l with
  | nil => intro seen; simp [dedupAux]
  | cons m' rest ih =>
    intro seen
    rw [dedupAux]
    by_cases hm : m' ∈ seen
    · rw [if_pos hm]; exact ih seen
    · rw [if_neg hm]
      refine List.nodup_cons.mpr ⟨?_, ih (m' :: seen)⟩
      intro hmem
      exact dedupAux_not_mem_seen rest (m' :: seen) m' hmem (List.mem_cons_self m' seen)

/-- C1: if the HTTP fetch raises a network or HTTP error the run leaves
the output file exactly as it was, for every prior content, and prints the
diagnostic line instead of raising; more generally any exception raised in
the try block between the fetch and the serialization leaves the file
unmodified with the diagnostic line printed. -/
theorem main_error_keeps_file :
    (∀ (fs : Option String) (today e : String),
      main fs (Except.error e) today = RunResult.mk fs (errPrefix ++ e)) ∧
    (∀ (fs : Option String) (fetch : Except String String) (today e : String),
      tryBody fs fetch today = Except.error e →
        (main fs fetch today).file = fs ∧ (main fs fetch today).output = errPrefix ++ e) := by
  constructor
  · intro fs today e; rfl
  · intro fs fetch today e h
    unfold main
    rw [h]
    exact ⟨rfl, rfl⟩

theorem main_error_keeps_file_witness :
    tryBody (some priorContent) (Except.error ("ConnectionError")) ("2025-10-12") =
      Except.error ("ConnectionError") ∧
    (main (some priorContent) (Except.error ("ConnectionError")) ("2025-10-12")).file =
      some priorContent ∧
    (main (some priorContent) (Except.error ("ConnectionError")) ("2025-10-12")).output =
      errPrefix ++ "ConnectionError" :=
  ⟨rfl, main_error_keeps_file.2 (some priorContent) (Except.error ("ConnectionError"))
    ("2025-10-12") ("ConnectionError") rfl⟩

/-- C2: whenever the phrase is found and a bracketed numeric array is
found in the 50000-character window starting at the phrase, the extracted
series length is the minimum of the number of distinct month tokens of the
whole text and the number of numeric tokens of the matched array. -/
theorem parse_series_length_is_min (html : List Char) (s e : Nat) (raw : List Char)
    (h1 : mcmPhraseSearch html = some (s, e))
    (h2 : arrSearch ((html.drop s).take 50000) = some raw) :
    (parse_series html).length =
      min (dedupFirst (findMonths html)).length (findallNums raw).length := by
  simp only [parse_series, h1, h2]
  split_ifs with hn
  · simp only [List.length_map] at hn
    simp [hn]
  · simp [List.length_map]

theorem parse_series_length_is_min_witness :
    mcmPhraseSearch (("2024-01 2024-02 Monthly Citation Metric [1, 2, 3]").data) =
      some (16, 39) ∧
    arrSearch (((("2024-01 2024-02 Monthly Citation Metric [1, 2, 3]").data).drop 16).take 50000) =
      some (("[1, 2, 3]").data) ∧
    (parse_series (("2024-01 2024-02 Monthly Citation Metric [1, 2, 3]").data)).length =
      min (dedupFirst (findMonths (("2024-01 2024-02 Monthly Citation Metric [1, 2, 3]").data))).length
        (findallNums (("[1, 2, 3]").data)).length :=
  ⟨by decide, by decide,
    parse_series_length_is_min (("2024-01 2024-02 Monthly Citation Metric [1, 2, 3]").data)
      16 39 (("[1, 2, 3]").data) (by decide) (by decide)⟩

/-- C3, as stated, is false on the code: near a citations label the chunk
1,276 is normalised to 1.276 (the comma becomes a decimal point), not to
the integer 1276, and near an index label the chunk 12.3 is normalised to
123 (the dot is stripped as a thousands separator), not kept as 12.3. -/
theorem parse_number_examples_counterexample :
    parse_number_near_label (("citations: 1,276 total").data)
      (ciLitSearch (("citations").data)) ≠ some (JNum.int 1276) ∧
    parse_number_near_label (("index: 12.3").data)
      (ciLitSearch (("index").data)) ≠ some (JNum.float (123 / 10)) := by
  decide

/-- C3 amended: in a window containing citations: 1,276 total near the
matched label the operation returns the float 1.276, and in a window
containing index: 12.3 near the matched label it returns the integer 123,
by the normalisation that strips dots and turns commas into decimal
points. -/
theorem parse_number_examples_amended :
    parse_number_near_label (("citations: 1,276 total").data)
      (ciLitSearch (("citations").data)) = some (JNum.float (319 / 250)) ∧
    parse_number_near_label (("index: 12.3").data)
      (ciLitSearch (("index").data)) = some (JNum.int 123) := by
  decide

/-- C4: when the phrase does not occur (case-insensitively) in the text,
parse_series returns the empty sequence; the operation is total, so this
is a soft failure and no exception is raised. -/
theorem parse_series_empty_when_no_phrase (html : List Char)
    (h : mcmPhraseSearch html = none) : parse_series html = [] := by
  simp [parse_series, h]

theorem parse_series_empty_when_no_phrase_witness :
    mcmPhraseSearch (("hello world").data) = none ∧
    parse_series (("hello world").data) = [] :=
  ⟨by decide, parse_series_empty_when_no_phrase (("hello world").data) (by decide)⟩

/-- C7: months are collected from the whole text first-seen order with
later duplicates removed before pairing: on the spec's scenario input the
result is exactly the two points for 2024-01 and 2024-02 with values 0.1
and 0.2, the duplicate month removed and the extra array value dropped;
and the de-duplicated month list never contains a repeated month. -/
theorem parse_series_dedup_truncate_scenario :
    parse_series (("2024-01 2024-02 2024-01 Monthly Citation Metric [0.10, 0.20, 0.30]").data) =
      [SeriesPoint.mk ("2024-01") (1 / 10), SeriesPoint.mk ("2024-02") (1 / 5)] ∧
    ∀ ms : List String, (dedupFirst ms).Nodup := by
  constructor
  · decide
  · intro ms; exact dedupAux_nodup ms []

theorem chooseSeries_obj (extracted : List SeriesPoint) (kvs : List (String × JVal)) :
    chooseSeries extracted (JVal.obj kvs) = Except.ok (chooseSeriesVal extracted kvs) := by
  have hget : pyGet (JVal.obj kvs) ("series" : String) =
      Except.ok (pyLookup kvs ("series" : String)) := rfl
  unfold chooseSeries chooseSeriesVal
  by_cases h : extracted.isEmpty
  · rw [if_pos h, if_pos h, hget]
    cases hl : pyLookup kvs ("series" : String) with
    | none => rfl
    | some v => cases v <;> rfl
  · rw [if_neg h, if_neg h]

theorem runBody_obj (kvs : List (String × JVal)) (html : List Char) (today : String) :
    runBody (JVal.obj kvs) html today = Except.ok (mkPayload kvs html today) := by
  simp only [runBody, mkPayload]
  rw [chooseSeries_obj]
  rfl

theorem mkPayload_series (kvs : List (String × JVal)) (html : List Char) (today : String) :
    pyLookup (mkPayload kvs html today) ("series" : String) =
      some (chooseSeriesVal (parse_series html) kvs) := rfl

theorem escapeChar_eq_self (c : Char) (h1 : 31 < c.toNat) (h2 : c ≠ '"') (h3 : c ≠ '\\') :
    escapeChar c = [c] := by
  have hn : c ≠ '\n' := by intro h; rw [h] at h1; exact absurd h1 (by decide)
  have ht : c ≠ '\t' := by intro h; rw [h] at h1; exact absurd h1 (by decide)
  have hr : c ≠ '\r' := by intro h; rw [h] at h1; exact absurd h1 (by decide)
  have hb : c ≠ '\x08' := by intro h; rw [h] at h1; exact absurd h1 (by decide)
  have hf : c ≠ '\x0c' := by intro h; rw [h] at h1; exact absurd h1 (by decide)
  have hcc : ¬(c.toNat < 32) := by omega
  unfold escapeChar
  rw [if_neg h2, if_neg h3, if_neg hn, if_neg ht, if_neg hr, if_neg hb, if_neg hf, if_neg hcc]

/-- C5: in the run update, when the newly extracted series is empty and
the prior snapshot has a non-empty series list, the written payload's
series is exactly the prior list (carry-forward); in every other case the
written payload's series is the JSON form of the newly extracted series. -/
theorem runBody_series_carry_forward :
    ∀ (kvs : List (String × JVal)) (html : List Char) (today : String) (l : List JVal),
    (parse_series html = [] → pyLookup kvs ("series" : String) = some (JVal.arr l) → l ≠ [] →
      ∃ p, runBody (JVal.obj kvs) html today = Except.ok p ∧
        pyLookup p ("series" : String) = some (JVal.arr l)) ∧
    (parse_series html ≠ [] →
      ∃ p, runBody (JVal.obj kvs) html today = Except.ok p ∧
        pyLookup p ("series" : String) = some (seriesToJson (parse_series html))) ∧
    (parse_series html = [] →
      (∀ l2, pyLookup kvs ("series" : String) = some (JVal.arr l2) → l2 = []) →
      ∃ p, runBody (JVal.obj kvs) html today = Except.ok p ∧
        pyLookup p ("series" : String) = some (seriesToJson (parse_series html))) := by
  intro kvs html today l
  refine ⟨?_, ?_, ?_⟩
  · intro h hl _
    refine ⟨mkPayload kvs html today, runBody_obj kvs html today, ?_⟩
    rw [mkPayload_series]
    unfold chooseSeriesVal
    rw [h]
    simp [hl]
  · intro h
    refine ⟨mkPayload kvs html today, runBody_obj kvs html today, ?_⟩
    rw [mkPayload_series]
    have he : (parse_series html).isEmpty = false := by
      cases hh : parse_series html
      · exact absurd hh h
      · rfl
    unfold chooseSeriesVal
    rw [he]
    simp
  · intro h h2
    refine ⟨mkPayload kvs html today, runBody_obj kvs html today, ?_⟩
    rw [mkPayload_series]
    unfold chooseSeriesVal
    rw [h]
    cases hl : pyLookup kvs ("series" : String) with
    | none => rfl
    | some v =>
      cases v with
      | arr l2 => rw [h2 l2 hl]; rfl
      | null => rfl
      | bool b => rfl
      | num n => rfl
      | str s => rfl
      | obj o => rfl

theorem runBody_series_carry_forward_witness :
    parse_series (("x" : String)).data = [] ∧
    pyLookup [(("series" : String), JVal.arr [JVal.null])] ("series" : String) =
      some (JVal.arr [JVal.null]) ∧
    (∃ p, runBody (JVal.obj [(("series" : String), JVal.arr [JVal.null])])
        (("x" : String)).data ("2025-10-12") = Except.ok p ∧
      pyLookup p ("series" : String) = some (JVal.arr [JVal.null])) :=
  ⟨by decide, rfl,
    (runBody_series_carry_forward [(("series" : String), JVal.arr [JVal.null])]
      (("x" : String)).data ("2025-10-12") [JVal.null]).1 (by decide) rfl (by simp)⟩

/-- C10: the carry-forward test only checks that the prior snapshot's
series entry is a list: with an empty extraction, a string entry is not
carried forward (the written series is the empty list) while any list
entry, whatever its contents, is written unchanged. -/
theorem runBody_series_isinstance_only :
    ∀ (kvs : List (String × JVal)) (html : List Char) (today : String),
    parse_series html = [] →
    ((∀ s, pyLookup kvs ("series" : String) = some (JVal.str s) →
      ∃ p, runBody (JVal.obj kvs) html today = Except.ok p ∧
        pyLookup p ("series" : String) = some (JVal.arr [])) ∧
     (∀ l, pyLookup kvs ("series" : String) = some (JVal.arr l) →
      ∃ p, runBody (JVal.obj kvs) html today = Except.ok p ∧
        pyLookup p ("series" : String) = some (JVal.arr l))) := by
  intro kvs html today h
  constructor
  · intro s hl
    refine ⟨mkPayload kvs html today, runBody_obj kvs html today, ?_⟩
    rw [mkPayload_series]
    unfold chooseSeriesVal
    rw [h]
    simp [hl, seriesToJson]
  · intro l hl
    refine ⟨mkPayload kvs html today, runBody_obj kvs html today, ?_⟩
    rw [mkPayload_series]
    unfold chooseSeriesVal
    rw [h]
    simp [hl]

theorem runBody_series_isinstance_only_witness :
    parse_series (("x" : String)).data = [] ∧
    pyLookup [(("series" : String), JVal.str ("boom"))] ("series" : String) =
      some (JVal.str ("boom")) ∧
    (∃ p, runBody (JVal.obj [(("series" : String), JVal.str ("boom"))])
        (("x" : String)).data ("2025-10-12") = Except.ok p ∧
      pyLookup p ("series" : String) = some (JVal.arr [])) :=
  ⟨by decide, rfl,
    ((runBody_series_isinstance_only [(("series" : String), JVal.str ("boom"))]
      (("x" : String)).data ("2025-10-12") (by decide)).1 ("boom") rfl)⟩

/-- C6: on a successful run the written file is the pretty-printed JSON
serialization (non-ASCII characters preserved literally) of a payload
whose source is the fixed URL, whose updated_at is the current date, and
whose h5_index and mcm are the newly parsed values when extraction
succeeded, else the prior snapshot's entries, else null. -/
theorem main_success_snapshot :
    ∀ (fs : Option String) (html today : String) (kvs : List (String × JVal)),
    loadOld fs = JVal.obj kvs →
    ∃ p, runBody (JVal.obj kvs) html.data today = Except.ok p ∧
      main fs (Except.ok html) today =
        RunResult.mk (some (json_dumps (JVal.obj p))) ("OK: JSON atualizado.") ∧
      pyLookup p ("source" : String) = some (JVal.str SCILIT_URL) ∧
      pyLookup p ("updated_at" : String) = some (JVal.str today) ∧
      pyLookup p ("h5_index" : String) =
        some (match parse_number_near_label html.data h5Search with
          | some v => JVal.num v
          | none => (pyLookup kvs ("h5_index" : String)).getD JVal.null) ∧
      pyLookup p ("mcm" : String) =
        some (match parse_number_near_label html.data mcmSearchLabel with
          | some v => JVal.num v
          | none => (pyLookup kvs ("mcm" : String)).getD JVal.null) ∧
      (∀ c : Char, 31 < c.toNat → c ≠ '"' → c ≠ '\\' → escapeChar c = [c]) := by
  intro fs html today kvs h
  refine ⟨mkPayload kvs html.data today, runBody_obj kvs html.data today, ?_,
    rfl, rfl, rfl, rfl, escapeChar_eq_self⟩
  unfold main tryBody
  rw [h]
  simp only [runBody_obj]

theorem main_success_snapshot_witness :
    loadOld none = JVal.obj [] ∧
    (∃ p, runBody (JVal.obj []) (("x" : String)).data ("2025-10-12") = Except.ok p ∧
      main none (Except.ok ("x" : String)) ("2025-10-12") =
        RunResult.mk (some (json_dumps (JVal.obj p))) ("OK: JSON atualizado.") ∧
      pyLookup p ("source" : String) = some (JVal.str SCILIT_URL) ∧
      pyLookup p ("updated_at" : String) = some (JVal.str ("2025-10-12")) ∧
      pyLookup p ("h5_index" : String) =
        some (match parse_number_near_label (("x" : String)).data h5Search with
          | some v => JVal.num v
          | none => (pyLookup [] ("h5_index" : String)).getD JVal.null) ∧
      pyLookup p ("mcm" : String) =
        some (match parse_number_near_label (("x" : String)).data mcmSearchLabel with
          | some v => JVal.num v
          | none => (pyLookup [] ("mcm" : String)).getD JVal.null) ∧
      (∀ c : Char, 31 < c.toNat → c ≠ '"' → c ≠ '\\' → escapeChar c = [c])) :=
  ⟨rfl, main_success_snapshot none ("x") ("2025-10-12") [] rfl⟩

theorem isMonthAt_shape (l : List Char) (h : isMonthAt l = true) :
    monthShapeB (String.mk (l.take 7)) = true := by
  unfold isMonthAt at h
  split at h
  · simpa [monthShapeB, List.take] using h
  · exact absurd h (by simp)

theorem findMonthsF_shape : ∀ (fuel : Nat) (l : List Char) (m : String),
    m ∈ findMonthsF fuel l → monthShapeB m = true := by
  intro fuel
  induction fuel with
  | zero => intro l m h; simp [findMonthsF] at h
  | succ n ih =>
    intro l m h
    cases l with
    | nil => simp [findMonthsF] at h
    | cons c t =>
      simp only [findMonthsF] at h
      split at h
      · rcases List.mem_cons.mp h with h1 | h2
        · rw [h1]
          exact isMonthAt_shape (c :: t) (by assumption)
        · exact ih _ _ h2
      · exact ih _ _ h

theorem dedupAux_subset : ∀ (l seen : List String) (m : String),
    m ∈ dedupAux seen l → m ∈ l := by
  intro l
  induction l with
  | nil => intro seen m h; simp [dedupAux] at h
  | cons x rest ih =>
    intro seen m h
    rw [dedupAux] at h
    by_cases hx : x ∈ seen
    · rw [if_pos hx] at h
      exact List.mem_cons_of_mem x (ih seen m h)
    · rw [if_neg hx] at h
      rcases List.mem_cons.mp h with h1 | h2
      · rw [h1]; exact List.mem_cons_self x rest
      · exact List.mem_cons_of_mem x (ih _ m h2)

theorem pyFloatOfToken_nonneg (tok : List Char) : 0 ≤ pyFloatOfToken tok := by
  unfold pyFloatOfToken
  split
  · positivity
  · positivity

theorem halfEven_nonneg (x : ℚ) (h : 0 ≤ x) : 0 ≤ halfEven x := by
  simp only [halfEven]
  have hf : (0 : ℤ) ≤ ⌊x⌋ := Int.floor_nonneg.mpr h
  split_ifs <;> omega

theorem roundTo4_nonneg (q : ℚ) (h : 0 ≤ q) : 0 ≤ roundTo4 q := by
  unfold roundTo4
  have h1 : (0 : ℤ) ≤ halfEven (q * 10000) := halfEven_nonneg _ (by positivity)
  have h2 : (0 : ℚ) ≤ (halfEven (q * 10000) : ℚ) := by exact_mod_cast h1
  exact div_nonneg h2 (by norm_num)

/-- C9: every extracted point has a non-negative value (the value token
grammar admits no sign, and rounding preserves the sign) and a month of
the shape 20YY-MM with arbitrary two-digit MM; the month part is not
validated to the range 01 to 12, and on a concrete input the result
contains the month 2024-99. -/
theorem parse_series_point_invariants :
    (∀ (html : List Char) (p : SeriesPoint), p ∈ parse_series html →
      0 ≤ p.value ∧ monthShapeB p.month = true) ∧
    parse_series (("Monthly Citation Metric 2024-99 [1]").data) =
      [SeriesPoint.mk ("2024-99") 1] := by
  constructor
  · intro html p hp
    cases h1 : mcmPhraseSearch html with
    | none => simp only [parse_series, h1] at hp; simp at hp
    | some se =>
      obtain ⟨s, e⟩ := se
      simp only [parse_series, h1] at hp
      cases h2 : arrSearch ((html.drop s).take 50000) with
      | none => simp [h2] at hp
      | some raw =>
        simp only [h2] at hp
        split at hp
        · simp at hp
        · rcases List.mem_map.mp hp with ⟨i, hir, hpe⟩
          have hilt : i < min (dedupFirst (findMonths html)).length
              (((findallNums raw).map pyFloatOfToken).length) := List.mem_range.mp hir
          rw [← hpe]
          constructor
          · have hiv : i < ((findallNums raw).map pyFloatOfToken).length :=
              lt_of_lt_of_le hilt (min_le_right _ _)
            show 0 ≤ roundTo4 (((findallNums raw).map pyFloatOfToken)[i]!)
            rw [getElem!_pos ((findallNums raw).map pyFloatOfToken) i hiv]
            have hmem : ((findallNums raw).map pyFloatOfToken)[i] ∈
                (findallNums raw).map pyFloatOfToken := List.getElem_mem hiv
            rcases List.mem_map.mp hmem with ⟨tok, _, htok⟩
            rw [← htok]
            exact roundTo4_nonneg _ (pyFloatOfToken_nonneg tok)
          · have him : i < (dedupFirst (findMonths html)).length :=
              lt_of_lt_of_le hilt (min_le_left _ _)
            show monthShapeB ((dedupFirst (findMonths html))[i]!) = true
            rw [getElem!_pos (dedupFirst (findMonths html)) i him]
            have hmm : (dedupFirst (findMonths html))[i] ∈ dedupFirst (findMonths html) :=
              List.getElem_mem him
            exact findMonthsF_shape _ _ _ (dedupAux_subset _ _ _ hmm)
  · decide

theorem parse_series_point_invariants_witness :
    (SeriesPoint.mk ("2024-99") 1) ∈
      parse_series (("Monthly Citation Metric 2024-99 [1]").data) ∧
    (0 ≤ (SeriesPoint.mk ("2024-99") 1).value ∧
      monthShapeB (SeriesPoint.mk ("2024-99") 1).month = true) :=
  ⟨by decide,
    parse_series_point_invariants.1 (("Monthly Citation Metric 2024-99 [1]").data)
      (SeriesPoint.mk ("2024-99") 1) (by decide)⟩

theorem reSearchAux_spec (m : Option Char → List Char → Option (List Char)) :
    ∀ (l : List Char) (prev : Option Char) (pos s e : Nat),
    reSearchAux m prev pos l = some (s, e) →
    pos ≤ s ∧ s ≤ e ∧ ∃ prev2 rest, m prev2 (l.drop (s - pos)) = some rest := by
  intro l
  induction l with
  | nil =>
    intro prev pos s e h
    cases hm : m prev [] with
    | none =>
      simp only [reSearchAux, hm] at h
      exact absurd h (by simp)
    | some rest =>
      simp only [reSearchAux, hm, Option.some.injEq, Prod.mk.injEq] at h
      obtain ⟨h1, h2⟩ := h
      subst h1
      refine ⟨le_refl _, by omega, prev, rest, ?_⟩
      simpa using hm
  | cons c t ih =>
    intro prev pos s e h
    cases hm : m prev (c :: t) with
    | some rest =>
      simp only [reSearchAux, hm, Option.some.injEq, Prod.mk.injEq] at h
      obtain ⟨h1, h2⟩ := h
      subst h1
      refine ⟨le_refl _, by omega, prev, rest, ?_⟩
      simpa using hm
    | none =>
      simp only [reSearchAux, hm] at h
      obtain ⟨h1, h2, prev2, rest, h3⟩ := ih (some c) (pos + 1) s e h
      refine ⟨by omega, h2, prev2, rest, ?_⟩
      have hd : s - pos = (s - (pos + 1)) + 1 := by omega
      rw [hd]
      simpa using h3

theorem matchesCi_h (c : Char) (h : matchesCi c 'h' = true) : c = 'h' ∨ c = 'H' := by
  have ha : asciiUpper 'h' = 'H' := rfl
  simpa [matchesCi, ha] using h

theorem matchesCi_i (c : Char) (h : matchesCi c 'i' = true) : c = 'i' ∨ c = 'I' := by
  have ha : asciiUpper 'i' = 'I' := rfl
  simpa [matchesCi, ha] using h

theorem space_not_numchar (c : Char) (h : pyIsSpace c = true) :
    pyIsDigit c = false ∧ c ≠ '.' ∧ c ≠ ',' := by
  simp only [pyIsSpace, Bool.or_eq_true, decide_eq_true_eq] at h
  rcases h with ((((rfl | rfl) | rfl) | rfl) | rfl) | rfl <;> exact ⟨rfl, by decide, by decide⟩

/-- Any successful h5-label match starts with h or H, then the digit 5,
then a character that is neither a digit nor a numeric separator. -/
theorem matchH5_structure (prev : Option Char) (l : List Char) (rest : List Char)
    (h : matchH5 prev l = some rest) :
    ∃ c1 c3 r, l = c1 :: '5' :: c3 :: r ∧ (c1 = 'h' ∨ c1 = 'H') ∧
      pyIsDigit c3 = false ∧ c3 ≠ '.' ∧ c3 ≠ ',' := by
  unfold matchH5 at h
  split at h
  case isFalse => exact absurd h (by simp)
  case isTrue =>
    split at h
    case h_2 => exact absurd h (by simp)
    case h_1 c1 rest0 =>
      split at h
      case isFalse => exact absurd h (by simp)
      case isTrue hc1 =>
        cases rest0 with
        | nil => exact absurd h (by simp [litCi])
        | cons c3 r =>
          refine ⟨c1, c3, r, rfl, matchesCi_h c1 hc1, ?_⟩
          by_cases hsep : (c3 = '-' || pyIsSpace c3) = true
          · rcases Bool.or_eq_true_iff.mp hsep with hd | hs
            · have : c3 = '-' := by simp at hd; exact hd
              subst this
              exact ⟨rfl, by decide, by decide⟩
            · exact space_not_numchar c3 hs
          · simp only [hsep] at h
            rw [if_neg (show ¬(false = true) by simp)] at h
            cases hlit : litCi (("index" : String).data) (c3 :: r) with
            | none => rw [hlit] at h; exact absurd h (by simp)
            | some r2 =>
              have hci : matchesCi c3 'i' = true := by
                by_contra hno
                have : litCi (("index" : String).data) (c3 :: r) = none := by
                  simp only [litCi]
                  rw [if_neg (by simpa using hno)]
                rw [this] at hlit
                exact absurd hlit (by simp)
              rcases matchesCi_i c3 hci with rfl | rfl
              · exact ⟨rfl, by decide, by decide⟩
              · exact ⟨rfl, by decide, by decide⟩

theorem dropWhile_nondigit_append (pre tail : List Char)
    (hpre : ∀ c ∈ pre, pyIsDigit c = false) :
    (pre ++ '5' :: tail).dropWhile (fun c => !pyIsDigit c) = '5' :: tail := by
  induction pre with
  | nil => rfl
  | cons c cs ih =>
    have hc : pyIsDigit c = false := hpre c (List.mem_cons_self c cs)
    simp only [List.cons_append, List.dropWhile, hc]
    exact ih (fun d hd => hpre d (List.mem_cons_of_mem c hd))

theorem numRepsF_stop (fuel : Nat) (c : Char) (r : List Char)
    (h2 : c ≠ '.') (h3 : c ≠ ',') : numRepsF fuel (c :: r) = ([], c :: r) := by
  cases fuel with
  | zero => rfl
  | succ n => simp [numRepsF, h2, h3]

theorem numOpt_stop (c : Char) (r : List Char) (h2 : c ≠ '.') (h3 : c ≠ ',') :
    numOpt (c :: r) = ([], c :: r) := by
  simp [numOpt, h2, h3]

theorem numMunch_five (c3 : Char) (rr : List Char)
    (h1 : pyIsDigit c3 = false) (h2 : c3 ≠ '.') (h3 : c3 ≠ ',') :
    numMunch ('5' :: c3 :: rr) = ['5'] := by
  have h5 : pyIsDigit '5' = true := by decide
  simp only [numMunch, List.takeWhile, h5, h1]
  simp only [List.take, List.length_cons, List.length_nil, List.drop]
  rw [numRepsF_stop _ c3 rr h2 h3, numOpt_stop c3 rr h2 h3]
  rfl

/-- C8: the value returned by the scalar extraction is the first match of
the number grammar anywhere in the window, which begins 200 characters
before the label match; whenever the h5-index label matches with no digit
in the 200 characters before the match, the returned number is 5, the
digit inside the label itself, regardless of any number after the label. -/
theorem h5_number_is_always_five (html : List Char) (s e : Nat)
    (hs : h5Search html = some (s, e))
    (hpre : ∀ j, s - 200 ≤ j → j < s → pyIsDigit (html.getD j ' ') = false) :
    parse_number_near_label html h5Search = some (JNum.int 5) := by
  obtain ⟨_, hse, prev2, rest, hm⟩ := reSearchAux_spec matchH5 html none 0 s e hs
  rw [Nat.sub_zero] at hm
  obtain ⟨c1, c3, r, hdrop, hc1, hc3d, hc3p, hc3c⟩ :=
    matchH5_structure prev2 (html.drop s) rest hm
  have hlen : s + 3 ≤ html.length := by
    have hl := List.length_drop s html
    rw [hdrop] at hl
    simp only [List.length_cons] at hl
    omega
  have hc1d : pyIsDigit c1 = false := by rcases hc1 with rfl | rfl <;> decide
  -- the window
  have hstop3 : s + 3 ≤ min (e + 400) html.length := by omega
  -- decompose the chunk as the prefix before the label, then the label text
  have hdd : (html.drop (s - 200)).drop (s - (s - 200)) = html.drop s := by
    rw [List.drop_drop]
    congr 1
    omega
  have hsplit : html.drop (s - 200) =
      (html.drop (s - 200)).take (s - (s - 200)) ++ html.drop s := by
    conv_lhs => rw [← List.take_append_drop (s - (s - 200)) (html.drop (s - 200))]
    rw [hdd]
  have hprelen : ((html.drop (s - 200)).take (s - (s - 200))).length = s - (s - 200) := by
    rw [List.length_take, List.length_drop]
    omega
  have hpred : ∀ c ∈ (html.drop (s - 200)).take (s - (s - 200)), pyIsDigit c = false := by
    intro c hc
    obtain ⟨i, hi, hgi⟩ := List.mem_iff_getElem.mp hc
    have hi2 : i < s - (s - 200) := by rw [hprelen] at hi; exact hi
    have hj : (s - 200) + i < s := by omega
    have hj2 : (s - 200) + i < html.length := by omega
    have hval : ((html.drop (s - 200)).take (s - (s - 200)))[i] =
        html[(s - 200) + i] := by
      rw [List.getElem_take]
      exact List.getElem_drop html
    rw [hval] at hgi
    have := hpre ((s - 200) + i) (by omega) hj
    rw [List.getD_eq_getElem html ' ' hj2] at this
    rw [← hgi]
    exact this
  -- the chunk and the first number in it
  set pre := (html.drop (s - 200)).take (s - (s - 200)) with hpredef
  have hchunk : (html.drop (s - 200)).take (min (e + 400) html.length - (s - 200)) =
      (pre ++ [c1]) ++ '5' :: c3 :: r.take (min (e + 400) html.length - s - 3) := by
    rw [hsplit, List.take_append_eq_append_take, hprelen]
    rw [List.take_of_length_le (by rw [hprelen]; omega)]
    rw [hdrop]
    have hk : min (e + 400) html.length - (s - 200) - (s - (s - 200)) =
        (min (e + 400) html.length - s - 3) + 3 := by omega
    rw [hk]
    have ht3 : (c1 :: '5' :: c3 :: r).take ((min (e + 400) html.length - s - 3) + 3) =
        c1 :: '5' :: c3 :: r.take (min (e + 400) html.length - s - 3) := rfl
    rw [ht3]
    exact List.append_cons _ _ _
  have hnondig : ∀ c ∈ pre ++ [c1],
      pyIsDigit c = false := by
    intro c hc
    rcases List.mem_append.mp hc with h1 | h1
    · exact hpred c h1
    · rw [List.mem_singleton.mp h1]; exact hc1d
  have hns : numSearch ((html.drop (s - 200)).take (min (e + 400) html.length - (s - 200))) =
      some ['5'] := by
    rw [hchunk]
    unfold numSearch
    rw [dropWhile_nondigit_append _ _ hnondig]
    show some (numMunch ('5' :: c3 :: r.take (min (e + 400) html.length - s - 3))) = some ['5']
    rw [numMunch_five c3 _ hc3d hc3p hc3c]
  simp only [parse_number_near_label, hs, hns]
  rfl

theorem h5_number_is_always_five_witness :
    h5Search (("The h5-index: 42").data) = some (4, 12) ∧
    (∀ j, 4 - 200 ≤ j → j < 4 →
      pyIsDigit ((("The h5-index: 42").data).getD j ' ') = false) ∧
    parse_number_near_label (("The h5-index: 42").data) h5Search = some (JNum.int 5) :=
  ⟨by decide, by intro j h1 h2; interval_cases j <;> decide,
    h5_number_is_always_five (("The h5-index: 42").data) 4 12 (by decide)
      (by intro j h1 h2; interval_cases j <;> decide)⟩

end Theorems

end Scilit
